import Mathlib

/-!
Verification development for the gnote note-synchronization engine and its
surrounding components (GVFS sync-service addin, notebook manager).

The sync engine itself (SyncManager, FileSystemSyncServer, Manifest,
SyncState) is modelled from the specification, since only its unit tests and
callers are part of the source tree under scrutiny.  The GVFS addin
(`create_sync_server`, `mount`) and the notebook manager
(`get_or_create_notebook`, `add_notebook`) are embedded directly from their
C++ sources.
-/

/-- Association-list lookup: first binding of the key wins (models map access). -/
def look {α β : Type} [DecidableEq α] (k : α) : List (α × β) → Option β
  | [] => none
  | (k', v) :: rest => if k' = k then some v else look k rest

/-- Modelled from the spec: one per-note ledger entry of the manifest
(`NoteEntry = {revision: RevisionId, deleted: bool}`). -/
structure NoteEntry where
  revision : Nat
  deleted : Bool
deriving DecidableEq

/-- Modelled from the spec: the remote manifest
(`{latest_revision: RevisionId, entries: map<Guid, NoteEntry>}`);
the store id plays no role in any property and is omitted. -/
structure Manifest where
  latest_revision : Nat
  entries : List (Nat × NoteEntry)
deriving DecidableEq

/-- Modelled from the spec: the directory-backed remote store.  `manifest`
is the published `manifest.xml` (absent on a fresh location); `revdirs`
are the `<revision>/` subdirectories, each holding `<note-id>.note` files
represented as (id, content) pairs. -/
structure Remote where
  manifest : Option Manifest
  revdirs : List (Nat × List (Nat × String))
deriving DecidableEq

/-- Modelled from the spec: one local note as the engine sees it
(content bytes plus the changed-since-last-sync flag derived from its
timestamp). -/
structure LocalNote where
  id : Nat
  content : String
  modified : Bool
deriving DecidableEq

/-- Modelled from the spec: the local note store collaborator
(`list() -> [(id, content_hash, last_changed)]`, `read`, `write`, `delete`). -/
structure LocalStore where
  notes : List LocalNote
deriving DecidableEq

/-- Modelled from the spec: per local store sync record
(`{last_synced_revision: RevisionId, local_revisions: map<Guid, RevisionId>}`). -/
structure SyncState where
  last_synced_revision : Nat
  local_revisions : List (Nat × Nat)
deriving DecidableEq

/-- Modelled from the spec: the sync error taxonomy of §7. -/
inductive SyncError
  | mountFailure
  | corruptManifest
  | manifestConflict
  | ioError
  | conflictUnresolved
deriving DecidableEq

/-- Modelled from the spec: conflict resolutions
(`Resolution ∈ {KeepLocal, KeepRemote, KeepBoth}`; the resolver may also
cancel, which is represented by the resolver returning `none`). -/
inductive Resolution
  | keepLocal
  | keepRemote
  | keepBoth
deriving DecidableEq

/-- Modelled from the spec: the manifest as read at session start; absence of
`manifest.xml` means `latest_revision = 0`, empty entry set. -/
def manifestAt (r : Remote) : Manifest :=
  match r.manifest with
  | some m => m
  | none => { latest_revision := 0, entries := [] }

/-- Modelled from the spec: `begin_transaction` reads and validates the
current manifest.  Corrupt manifests are not representable in this model
(manifests are structured data, not bytes), so reading always succeeds. -/
def beginTransaction (r : Remote) : Except SyncError Manifest :=
  .ok (manifestAt r)

/-- Modelled from the spec: fetch one note's content from the remote store
(read `<revision>/<note-id>.note`). -/
def fetchNote (r : Remote) (rev : Nat) (id : Nat) : Option String :=
  match look rev r.revdirs with
  | some files => look id files
  | none => none

/-- Modelled from the spec: the per-note classification of §4.1, the
three-way diff between the local note, the local sync record and the
manifest entry.  The action carries the data needed to perform it. -/
inductive SyncAction
  | skip
  | upload (content : String)
  | download (revision : Nat)
  | downloadNew (revision : Nat)
  | deleteLocal
  | tombstone
  | conflict (localContent : String) (revision : Nat)
deriving DecidableEq

/-- Modelled from the spec: classify one note id by comparing the local
store, `SyncState.local_revisions` and the manifest entries (§4.1 step 3).
A remote entry counts as changed when its revision exceeds
`last_synced_revision`. -/
def classify (s : SyncState) (man : Manifest) (l : LocalStore) (id : Nat) : SyncAction :=
  match look id (l.notes.map (fun n => (n.id, n))), look id s.local_revisions, look id man.entries with
  | some n, none, _ => .upload n.content
  | some n, some _, some e =>
    if s.last_synced_revision < e.revision then
      if e.deleted then
        if n.modified then .conflict n.content e.revision else .deleteLocal
      else
        if n.modified then .conflict n.content e.revision else .download e.revision
    else
      if n.modified then .upload n.content else .skip
  | some n, some _, none => if n.modified then .upload n.content else .skip
  | none, some _, some e =>
    if e.deleted then .skip
    else if s.last_synced_revision < e.revision then .downloadNew e.revision
    else .tombstone
  | none, some _, none => .skip
  | none, none, some e =>
    if e.deleted then .skip
    else if s.last_synced_revision < e.revision then .downloadNew e.revision
    else .skip
  | none, none, none => .skip

/-- Modelled from the spec: everything a session stages before commit:
uploads and tombstones bound for the new revision, downloads and deletions
to apply locally after commit, the conflict count, and the counter used to
mint fresh ids for `KeepBoth` conflict copies. -/
structure Staged where
  uploads : List (Nat × String) := []
  tombstones : List Nat := []
  localWrites : List (Nat × String) := []
  localNews : List (Nat × String) := []
  localDeletes : List Nat := []
  conflicts : Nat := 0
  next : Nat := 0
deriving DecidableEq

/-- Modelled from the spec: a fresh id strictly above every id in use,
for `KeepBoth` conflict copies ("new Guid"). -/
def freshIdAbove (ids : List Nat) : Nat :=
  ids.foldr (fun a b => max a b) 0 + 1

/-- Modelled from the spec: the initial staging area of a session. -/
def initStaged (ids : List Nat) : Staged :=
  { next := freshIdAbove ids }

/-- Modelled from the spec: process one classified note, extending the
staging area.  `ioFail` injects an IO failure into staged uploads; a fetch
of a missing remote file is likewise an IO failure; a resolver answer of
`none` is a cancellation (`ConflictUnresolved`). -/
def processId (r : Remote) (ioFail : Bool) (resolver : Nat → Option Resolution)
    (acc : Staged) (idAct : Nat × SyncAction) : Except SyncError Staged :=
  match idAct.2 with
  | .skip => .ok acc
  | .upload c =>
    if ioFail then .error .ioError
    else .ok { acc with uploads := acc.uploads ++ [(idAct.1, c)] }
  | .download rev =>
    match fetchNote r rev idAct.1 with
    | some c => .ok { acc with localWrites := acc.localWrites ++ [(idAct.1, c)] }
    | none => .error .ioError
  | .downloadNew rev =>
    match fetchNote r rev idAct.1 with
    | some c => .ok { acc with localNews := acc.localNews ++ [(idAct.1, c)] }
    | none => .error .ioError
  | .deleteLocal => .ok { acc with localDeletes := acc.localDeletes ++ [idAct.1] }
  | .tombstone => .ok { acc with tombstones := acc.tombstones ++ [idAct.1] }
  | .conflict c rev =>
    match resolver idAct.1 with
    | none => .error .conflictUnresolved
    | some .keepLocal =>
      if ioFail then .error .ioError
      else .ok { acc with uploads := acc.uploads ++ [(idAct.1, c)],
                          conflicts := acc.conflicts + 1 }
    | some .keepRemote =>
      match fetchNote r rev idAct.1 with
      | some rc => .ok { acc with localWrites := acc.localWrites ++ [(idAct.1, rc)],
                                  conflicts := acc.conflicts + 1 }
      | none => .error .ioError
    | some .keepBoth =>
      match fetchNote r rev idAct.1 with
      | some rc =>
        if ioFail then .error .ioError
        else .ok { acc with uploads := acc.uploads ++ [(acc.next, rc)],
                            localNews := acc.localNews ++ [(acc.next, rc)],
                            next := acc.next + 1,
                            conflicts := acc.conflicts + 1 }
      | none => .error .ioError

/-- Modelled from the spec: stage every classified note in turn; the first
failure aborts the whole staging phase. -/
def processAll (r : Remote) (ioFail : Bool) (resolver : Nat → Option Resolution) :
    Staged → List (Nat × SyncAction) → Except SyncError Staged
  | acc, [] => .ok acc
  | acc, x :: xs =>
    match processId r ioFail resolver acc x with
    | .ok acc' => processAll r ioFail resolver acc' xs
    | .error e => .error e

/-- Modelled from the spec: the set of notes known to either side — local
notes, locally tracked ids, and manifest entries. -/
def sessionIds (man : Manifest) (l : LocalStore) (s : SyncState) : List Nat :=
  ((l.notes.map (fun n => n.id)) ++ s.local_revisions.map Prod.fst
    ++ man.entries.map Prod.fst).dedup

/-- Modelled from the spec: a session with nothing staged publishes nothing
(no new revision is allocated for a no-op session, which is what makes a
second identical session idempotent). -/
def Staged.noChanges (st : Staged) : Bool :=
  st.uploads.isEmpty && st.tombstones.isEmpty && st.localWrites.isEmpty
    && st.localNews.isEmpty && st.localDeletes.isEmpty

/-- Modelled from the spec: `commit` allocates `latest_revision + 1`, writes
the staged files into the new `<latest_revision+1>/` directory, and
publishes a new manifest whose staged entries shadow the previous ones. -/
def commitTransaction (r : Remote) (man : Manifest) (st : Staged) : Remote × Manifest :=
  let L := man.latest_revision + 1
  let newEntries := (st.uploads.map (fun p => (p.1, NoteEntry.mk L false)))
    ++ (st.tombstones.map (fun i => (i, NoteEntry.mk L true)))
  let man' : Manifest := { latest_revision := L, entries := newEntries ++ man.entries }
  ({ manifest := some man', revdirs := (L, st.uploads) :: r.revdirs }, man')

/-- Modelled from the spec: apply the staged downloads, deletions and new
notes to the local store after a successful commit; every touched and
untouched note is now in sync, so the modified flag clears. -/
def applyLocal (l : LocalStore) (st : Staged) : LocalStore :=
  { notes :=
      ((l.notes.filter (fun n => !(st.localDeletes.contains n.id))).map
        (fun n => { id := n.id
                    content := (look n.id st.localWrites).getD n.content
                    modified := false }))
      ++ st.localNews.map (fun p => { id := p.1, content := p.2, modified := false }) }

/-- Modelled from the spec: after a successful session the sync state records
the new manifest revision and the note-to-revision map of every local note. -/
def rebuildState (man' : Manifest) (l' : LocalStore) : SyncState :=
  { last_synced_revision := man'.latest_revision
    local_revisions := l'.notes.map (fun n =>
      (n.id, match look n.id man'.entries with
             | some e => e.revision
             | none => man'.latest_revision)) }

/-- Modelled from the spec: the observable outcome of one sync session:
the result, the three stores, the transfer/conflict counts, and whether a
new revision was committed. -/
structure SyncOutcome where
  result : Except SyncError Unit
  store : LocalStore
  remote : Remote
  state : SyncState
  uploadCount : Nat
  downloadCount : Nat
  conflictCount : Nat
  committed : Bool

/-- Modelled from the spec: an aborted session leaves every store exactly
as it was — nothing was published, so there is nothing to roll back. -/
def abortOutcome (e : SyncError) (l : LocalStore) (r : Remote) (s : SyncState) : SyncOutcome :=
  { result := .error e, store := l, remote := r, state := s
    uploadCount := 0, downloadCount := 0, conflictCount := 0, committed := false }

/-- Modelled from the spec: one complete sync session (§4.1): open the
server (mount), begin the transaction, classify and stage every note,
resolve conflicts, then either publish atomically and apply locally, or
abort leaving both stores untouched.  `mountOk` is the mount collaborator's
verdict, `commitOk` models the optimistic-concurrency check at commit. -/
def perform_synchronization (mountOk commitOk ioFail : Bool)
    (resolver : Nat → Option Resolution)
    (l : LocalStore) (r : Remote) (s : SyncState) : SyncOutcome :=
  if mountOk = false then abortOutcome .mountFailure l r s
  else
    let man := manifestAt r
    let ids := sessionIds man l s
    let acts := ids.map (fun id => (id, classify s man l id))
    match processAll r ioFail resolver (initStaged ids) acts with
    | .error e => abortOutcome e l r s
    | .ok st =>
      if st.noChanges then
        { result := .ok (), store := l, remote := r, state := s
          uploadCount := st.uploads.length
          downloadCount := st.localWrites.length + st.localNews.length
          conflictCount := st.conflicts, committed := false }
      else if commitOk = false then abortOutcome .manifestConflict l r s
      else
        let rm := commitTransaction r man st
        let l' := applyLocal l st
        { result := .ok (), store := l', remote := rm.1, state := rebuildState rm.2 l'
          uploadCount := st.uploads.length
          downloadCount := st.localWrites.length + st.localNews.length
          conflictCount := st.conflicts, committed := true }

/-- Modelled from the spec: the per-session knobs supplied by the
collaborators (mount verdict, concurrent-committer race, injected IO
failure, conflict resolver). -/
structure SessionParams where
  mountOk : Bool
  commitOk : Bool
  ioFail : Bool
  resolver : Nat → Option Resolution

/-- Modelled from the spec: run a sequence of sync sessions, each starting
from the stores the previous one left behind. -/
def runSessions : List SessionParams → LocalStore × Remote × SyncState →
    LocalStore × Remote × SyncState
  | [], t => t
  | p :: ps, (l, r, s) =>
    let o := perform_synchronization p.mountOk p.commitOk p.ioFail p.resolver l r s
    runSessions ps (o.store, o.remote, o.state)

/-- Manifest well-formedness from the spec's invariant list:
`entries[id].revision ≤ manifest.latest_revision` for every entry. -/
def manifestWF (man : Manifest) : Bool :=
  man.entries.all (fun p => p.2.revision ≤ man.latest_revision)

/-- Total sum of staged work; zero exactly when the session stages nothing. -/
def Staged.size (st : Staged) : Nat :=
  st.uploads.length + st.tombstones.length + st.localWrites.length
    + st.localNews.length + st.localDeletes.length

/-- Bool test that `needle` is a prefix of `haystack` (on character lists). -/
def startsWithL : List Char → List Char → Bool
  | [], _ => true
  | _ :: _, [] => false
  | a :: as, b :: bs => a == b && startsWithL as bs

/-- Bool test that `needle` occurs somewhere inside `haystack`
(models `Glib::ustring::find(...) != npos` of the unit test). -/
def containsL (needle : List Char) : List Char → Bool
  | [] => needle.isEmpty
  | b :: t => startsWithL needle (b :: t) || containsL needle t

/-- Note content exactly as the unit-test fixture composes it:
`<note-content><note-title>%1</note-title>\n\n%2</note-content>`. -/
def noteXml (title body : String) : String :=
  "<note-content><note-title>" ++ title ++ "</note-title>\n\n" ++ body ++ "</note-content>"

/-- The three-note local store of the `SyncManagerTests` fixture
(`note1`/`content1` … `note3`/`content3`, freshly created and saved). -/
def fixtureStore : LocalStore :=
  { notes := [ { id := 1, content := noteXml "note1" "content1", modified := true }
             , { id := 2, content := noteXml "note2" "content2", modified := true }
             , { id := 3, content := noteXml "note3" "content3", modified := true } ] }

/-- A fresh remote location: no `manifest.xml`, no revision directories. -/
def freshRemote : Remote := { manifest := none, revdirs := [] }

/-- The sync state of a local store that has never synchronized. -/
def freshState : SyncState := { last_synced_revision := 0, local_revisions := [] }

/- ===== GvfsSyncServiceAddin (src/addins/gvfssyncservice/gvfssyncserviceaddin.cpp) ===== -/

/-- The environment `create_sync_server` runs in: the stored GSettings URI,
whether the sync directory already exists, whether the asynchronous mount
attempt succeeds, and whether the path exists once mounted. -/
structure AddinEnv where
  uriSetting : String
  uriDirExists : Bool
  mountOk : Bool
  pathExistsAfterMount : Bool
deriving DecidableEq

/-- The two exception kinds `create_sync_server` can raise:
`sharp::Exception("Failed to mount the folder")` and
`std::logic_error("... called without being configured")`. -/
inductive AddinError
  | mountFailure
  | notConfigured
deriving DecidableEq

/-- The `FileSystemSyncServer` handle produced on the success path
(a non-null pointer in the C++). -/
structure ServerHandle where
  uri : String
deriving DecidableEq

/-- Embedding of `GvfsSyncServiceAddin::get_config_settings`: reads the GVFS URI setting
and reports success iff it is non-empty (`return sync_path != ""`). -/
def get_config_settings (env : AddinEnv) : Option String :=
  if env.uriSetting = "" then none else some env.uriSetting

/-- Embedding of `GvfsSyncServiceAddin::create_sync_server`: if configured, create the
sync directory when missing, mount (throwing on failure), create the path if
it does not exist after mounting, and build the server; otherwise throw a
logic error.  The second component records every directory created — the
only side effect the function performs besides mounting; it never touches
the local note store or the remote manifest. -/
def create_sync_server (env : AddinEnv) : Except AddinError ServerHandle × List String :=
  match get_config_settings env with
  | some uri =>
    let created := if env.uriDirExists then [] else [uri]
    if env.mountOk = false then (.error .mountFailure, created)
    else
      let created2 := if env.pathExistsAfterMount then created else created ++ [uri]
      (.ok { uri := uri }, created2)
  | none => (.error .notConfigured, [])

/- ===== GvfsSyncServiceAddin::mount — blocking-wait state machine ===== -/

/-- Program counter of the thread calling `mount`: lock the mutex, start the
asynchronous mount, `cond.wait` (releasing the mutex), wake after the
signal (reacquiring it), unlock and return `bool(m_mount)`. -/
inductive MainPC
  | start
  | locked
  | started
  | waiting
  | relocked
  | returned
deriving DecidableEq

/-- Program counter of the mount-finished callback: it locks the mutex,
runs its body (`mount_enclosing_volume_finish` / `find_enclosing_mount`,
exceptions swallowed), signals the condition and unlocks. -/
inductive CbPC
  | idle
  | grabbed
  | bodyDone
  | signalled
  | done
deriving DecidableEq

/-- Shared state of `GvfsSyncServiceAddin::mount`: the two program counters,
the mutex, the condition's signal flag, `m_mount`, and the returned value
once the call completes. -/
structure MountMachine where
  mpc : MainPC
  cpc : CbPC
  mutexFree : Bool
  signalFlag : Bool
  mmount : Bool
  ret : Option Bool
deriving DecidableEq

/-- Initial state of a `mount` call on a not-yet-mounted location. -/
def mountInit : MountMachine :=
  { mpc := .start, cpc := .idle, mutexFree := true, signalFlag := false
    mmount := false, ret := none }

/-- Interleaving semantics of `GvfsSyncServiceAddin::mount` (lines 92–128):
`outcome` is whether the asynchronous mount attempt succeeds (on success the
callback stores the enclosing mount in `m_mount`).  The callback can only
run after `mount_enclosing_volume` was called and only while the mutex is
free.  The C++ calls `cond.wait(mutex)` exactly once with no predicate
re-check loop, and GLib condition variables (`g_cond_wait`, wrapped by
`Glib::Cond`) are documented to allow spurious wakeups, so the wait can
resume either after the callback's signal (`mainWake`) or spuriously at any
time the mutex can be reacquired (`mainWakeSpurious`). -/
inductive MountStep (outcome : Bool) : MountMachine → MountMachine → Prop
  | mainLock (s : MountMachine) : s.mpc = .start → s.mutexFree = true →
      MountStep outcome s { s with mpc := .locked, mutexFree := false }
  | mainAsyncStart (s : MountMachine) : s.mpc = .locked →
      MountStep outcome s { s with mpc := .started }
  | mainWait (s : MountMachine) : s.mpc = .started →
      MountStep outcome s { s with mpc := .waiting, mutexFree := true }
  | mainWake (s : MountMachine) : s.mpc = .waiting → s.signalFlag = true →
      s.mutexFree = true →
      MountStep outcome s { s with mpc := .relocked, mutexFree := false }
  | mainWakeSpurious (s : MountMachine) : s.mpc = .waiting → s.mutexFree = true →
      MountStep outcome s { s with mpc := .relocked, mutexFree := false }
  | mainReturn (s : MountMachine) : s.mpc = .relocked →
      MountStep outcome s
        { s with mpc := .returned, mutexFree := true, ret := some s.mmount }
  | cbLock (s : MountMachine) : s.cpc = .idle → s.mpc ≠ .start → s.mpc ≠ .locked →
      s.mutexFree = true →
      MountStep outcome s { s with cpc := .grabbed, mutexFree := false }
  | cbBody (s : MountMachine) : s.cpc = .grabbed →
      MountStep outcome s { s with cpc := .bodyDone, mmount := outcome }
  | cbSignal (s : MountMachine) : s.cpc = .bodyDone →
      MountStep outcome s { s with cpc := .signalled, signalFlag := true }
  | cbUnlock (s : MountMachine) : s.cpc = .signalled →
      MountStep outcome s { s with cpc := .done, mutexFree := true }

/-- States a `mount` call can actually be in: the reflexive-transitive
closure of the interleaving steps from the initial state. -/
def MountReachable (outcome : Bool) (s : MountMachine) : Prop :=
  Relation.ReflTransGen (MountStep outcome) mountInit s

/- ===== NotebookManager (src/notebooks/notebookmanager.cpp) ===== -/

/-- A notebook as `NotebookManager` sees it: its name and its normalized
name (`m_normalized_name`, computed by `Notebook::normalize` at
construction; `normalize` itself lives outside the sources and stays an
abstract parameter). -/
structure Notebook where
  name : String
  normalized_name : String
deriving DecidableEq

/-- The manager's `m_notebookMap`: normalized name → notebook.  The C++ map
stores tree iterators; the model resolves them to the notebook directly.
The Gtk list store, template notes and tags are GUI collaborators that do
not affect the map or the returned notebook. -/
structure NotebookManagerSt where
  notebookMap : List (String × Notebook)
deriving DecidableEq

/-- Embedding of `NotebookManager::get_notebook`: throws on an empty name or an empty
normalized name, otherwise looks the normalized name up in the map. -/
def get_notebook (normalize : String → String) (m : NotebookManagerSt)
    (nm : String) : Except String (Option Notebook) :=
  if nm = "" then .error "NotebookManager::get_notebook() called with an empty name."
  else
    let nn := normalize nm
    if nn = "" then .error "NotebookManager::get_notebook() called with an empty name."
    else .ok (look nn m.notebookMap)

/-- Embedding of `NotebookManager::get_or_create_notebook`: throws on an empty name;
returns an existing notebook when found (checking twice, as the C++ does
around its commented-out lock); otherwise constructs the notebook and files
it in the map under its normalized name. -/
def get_or_create_notebook (normalize : String → String) (m : NotebookManagerSt)
    (nm : String) : Except String (Notebook × NotebookManagerSt) :=
  if nm = "" then .error "NotebookManager.GetNotebook () called with a null name."
  else
    match get_notebook normalize m nm with
    | .error e => .error e
    | .ok (some nb) => .ok (nb, m)
    | .ok none =>
      match get_notebook normalize m nm with
      | .error e => .error e
      | .ok (some nb) => .ok (nb, m)
      | .ok none =>
        let nb : Notebook := { name := nm, normalized_name := normalize nm }
        .ok (nb, { notebookMap := (nb.normalized_name, nb) :: m.notebookMap })

/-- Embedding of `NotebookManager::add_notebook`: refuses (returning `false`, map
untouched) when a notebook with the same normalized name already exists;
otherwise appends it and returns `true`. -/
def add_notebook (m : NotebookManagerSt) (nb : Notebook) : Bool × NotebookManagerSt :=
  if (look nb.normalized_name m.notebookMap).isSome then (false, m)
  else (true, { notebookMap := (nb.normalized_name, nb) :: m.notebookMap })


/-- The first synchronization of the three-note fixture store against a
fresh remote, with the silent (never-asked) resolver. -/
def fixtureOutcome : SyncOutcome :=
  perform_synchronization true true false (fun _ => none) fixtureStore freshRemote freshState

/- ===== Theorems ===== -/

/-- C7: for every fresh remote location, `begin_transaction` on a directory
with no `manifest.xml` succeeds and yields a manifest with
`latest_revision = 0` and an empty entry set, rather than failing. -/
theorem begin_transaction_fresh (r : Remote) (h : r.manifest = none) :
    beginTransaction r = .ok { latest_revision := 0, entries := [] } := by
  simp [beginTransaction, manifestAt, h]

theorem begin_transaction_fresh_witness :
    freshRemote.manifest = none ∧
      beginTransaction freshRemote = .ok { latest_revision := 0, entries := [] } :=
  ⟨rfl, begin_transaction_fresh freshRemote rfl⟩

/-- C4: round trip — committing a staged upload of content `c` for note `id`
publishes it under the new revision, and fetching it back from the remote
yields exactly `c`, hence a content whose hash is identical to the hash of
`c`. -/
theorem upload_download_roundtrip (r : Remote) (man : Manifest) (st : Staged)
    (id : Nat) (c : String) (h : look id st.uploads = some c) :
    fetchNote (commitTransaction r man st).1 (man.latest_revision + 1) id = some c ∧
      (fetchNote (commitTransaction r man st).1 (man.latest_revision + 1) id).map String.hash
        = some (String.hash c) := by
  have hf : fetchNote (commitTransaction r man st).1 (man.latest_revision + 1) id = some c := by
    simp [fetchNote, commitTransaction, look, h]
  exact ⟨hf, by rw [hf]; rfl⟩

theorem upload_download_roundtrip_witness :
    look 5 ({ uploads := [(5, "hello")] } : Staged).uploads = some "hello" ∧
      fetchNote (commitTransaction freshRemote { latest_revision := 0, entries := [] }
        { uploads := [(5, "hello")] }).1 1 5 = some "hello" :=
  ⟨rfl, (upload_download_roundtrip freshRemote { latest_revision := 0, entries := [] }
    { uploads := [(5, "hello")] } 5 "hello" rfl).1⟩

/-- C3: when the backend cannot be mounted, `create_sync_server` raises the
mount-failure exception before any server object is produced, and the only
effect it can have performed is creating the (still unmounted) sync
directory — it never touches the local note store or the remote manifest. -/
theorem create_sync_server_mount_failure (env : AddinEnv)
    (hc : env.uriSetting ≠ "") (hm : env.mountOk = false) :
    (create_sync_server env).1 = .error .mountFailure ∧
      (create_sync_server env).2 = (if env.uriDirExists then [] else [env.uriSetting]) := by
  simp [create_sync_server, get_config_settings, hc, hm]

theorem create_sync_server_mount_failure_witness :
    (create_sync_server ⟨"sftp://host/notes", true, false, false⟩).1 = .error .mountFailure :=
  (create_sync_server_mount_failure _ (by decide) rfl).1

/-- C9: `create_sync_server` with no configured URI (empty stored setting)
throws the logic error and produces no server; with a URI configured, the
success path returns an actual server handle (a non-null pointer). -/
theorem create_sync_server_configured (env : AddinEnv) :
    (env.uriSetting = "" → (create_sync_server env).1 = .error .notConfigured) ∧
    (env.uriSetting ≠ "" → env.mountOk = true →
      (create_sync_server env).1 = .ok { uri := env.uriSetting }) := by
  constructor
  · intro h
    simp [create_sync_server, get_config_settings, h]
  · intro h hm
    simp [create_sync_server, get_config_settings, h, hm]

theorem create_sync_server_configured_witness :
    (create_sync_server ⟨"", true, true, true⟩).1 = .error .notConfigured ∧
    (create_sync_server ⟨"sftp://host/notes", true, true, true⟩).1
      = .ok { uri := "sftp://host/notes" } :=
  ⟨(create_sync_server_configured _).1 rfl,
   (create_sync_server_configured _).2 (by decide) rfl⟩

/-- C10: two successive `get_or_create_notebook` calls with the same
non-empty name return the same notebook and the second call creates nothing
(the state is already final), and `add_notebook` returns `false` leaving the
map unchanged whenever a notebook with the same normalized name exists. -/
theorem get_or_create_notebook_idempotent (normalize : String → String)
    (m m' : NotebookManagerSt) (nm : String) (nb : Notebook)
    (h : get_or_create_notebook normalize m nm = .ok (nb, m')) :
    get_or_create_notebook normalize m' nm = .ok (nb, m') ∧
    (∀ (m2 : NotebookManagerSt) (nb2 : Notebook),
      (look nb2.normalized_name m2.notebookMap).isSome = true →
      add_notebook m2 nb2 = (false, m2)) := by
  refine ⟨?_, ?_⟩
  · by_cases h1 : nm = ""
    · simp [get_or_create_notebook, h1] at h
    · by_cases h2 : normalize nm = ""
      · simp [get_or_create_notebook, get_notebook, h1, h2] at h
      · cases hl : look (normalize nm) m.notebookMap with
        | some nb0 =>
          simp [get_or_create_notebook, get_notebook, h1, h2, hl] at h
          obtain ⟨rfl, rfl⟩ := h
          simp [get_or_create_notebook, get_notebook, h1, h2, hl]
        | none =>
          simp [get_or_create_notebook, get_notebook, h1, h2, hl] at h
          obtain ⟨rfl, rfl⟩ := h
          simp [get_or_create_notebook, get_notebook, h1, h2, look]
  · intro m2 nb2 hmem
    simp [add_notebook, hmem]

theorem get_or_create_notebook_idempotent_witness :
    get_or_create_notebook (fun s => s) { notebookMap := [] } "Work"
      = .ok ({ name := "Work", normalized_name := "Work" },
             { notebookMap := [("Work", { name := "Work", normalized_name := "Work" })] }) ∧
    get_or_create_notebook (fun s => s)
        { notebookMap := [("Work", { name := "Work", normalized_name := "Work" })] } "Work"
      = .ok ({ name := "Work", normalized_name := "Work" },
             { notebookMap := [("Work", { name := "Work", normalized_name := "Work" })] }) :=
  ⟨by rfl, (get_or_create_notebook_idempotent (fun s => s) { notebookMap := [] } _ "Work"
      { name := "Work", normalized_name := "Work" } (by rfl)).1⟩

/-- C2: after a first synchronization of a local store holding three notes
against a fresh remote, the remote contains one new revision directory
holding exactly one `.note` file per note, each file's content containing
that note's title, and the manifest references that revision (every entry
at the new `latest_revision`). -/
theorem clean_sync_first_revision :
    fixtureOutcome.result = .ok () ∧
    fixtureOutcome.remote.revdirs
      = [(1, [ (1, noteXml "note1" "content1")
             , (2, noteXml "note2" "content2")
             , (3, noteXml "note3" "content3") ])] ∧
    fixtureOutcome.remote.manifest
      = some { latest_revision := 1
               entries := [ (1, { revision := 1, deleted := false })
                          , (2, { revision := 1, deleted := false })
                          , (3, { revision := 1, deleted := false }) ] } ∧
    containsL "<note-title>note1</note-title>".data (noteXml "note1" "content1").data = true ∧
    containsL "<note-title>note2</note-title>".data (noteXml "note2" "content2").data = true ∧
    containsL "<note-title>note3</note-title>".data (noteXml "note3" "content3").data = true :=
  ⟨rfl, rfl, rfl, by decide, by decide, by decide⟩

/-- C1: every sync session aborted before commit (mount failure, IO failure
while staging or fetching, resolver cancellation, or losing the
optimistic-concurrency check) leaves the local note store, the remote
(manifest and revision directories) and the sync state exactly as they were;
nothing was committed. -/
theorem abort_before_commit_no_op (mountOk commitOk ioFail : Bool)
    (resolver : Nat → Option Resolution) (l : LocalStore) (r : Remote) (s : SyncState)
    (e : SyncError)
    (h : (perform_synchronization mountOk commitOk ioFail resolver l r s).result = .error e) :
    (perform_synchronization mountOk commitOk ioFail resolver l r s).store = l ∧
    (perform_synchronization mountOk commitOk ioFail resolver l r s).remote = r ∧
    (perform_synchronization mountOk commitOk ioFail resolver l r s).state = s ∧
    (perform_synchronization mountOk commitOk ioFail resolver l r s).committed = false := by
  unfold perform_synchronization at h ⊢
  by_cases hm : mountOk = false
  · simp [hm, abortOutcome]
  · simp only [hm, if_false] at h ⊢
    cases hp : processAll r ioFail resolver
        (initStaged (sessionIds (manifestAt r) l s))
        ((sessionIds (manifestAt r) l s).map (fun id => (id, classify s (manifestAt r) l id))) with
    | error e' => simp [hp, abortOutcome]
    | ok st =>
      simp only [hp] at h ⊢
      by_cases hn : st.noChanges
      · simp [hn] at h
      · by_cases hco : commitOk = false
        · simp [hn, hco, abortOutcome]
        · simp [hn, hco] at h

theorem abort_before_commit_no_op_witness :
    (perform_synchronization false true false (fun _ => none)
        fixtureStore freshRemote freshState).result = .error .mountFailure ∧
    (perform_synchronization false true false (fun _ => none)
        fixtureStore freshRemote freshState).remote = freshRemote :=
  ⟨rfl, (abort_before_commit_no_op false true false (fun _ => none)
    fixtureStore freshRemote freshState .mountFailure rfl).2.1⟩

/- ===== Helper lemmas ===== -/

theorem look_append_some {α β : Type} [DecidableEq α] {k : α} {a b : List (α × β)} {v : β}
    (h : look k a = some v) : look k (a ++ b) = some v := by
  induction a with
  | nil => simp [look] at h
  | cons x xs ih =>
    obtain ⟨k', w⟩ := x
    by_cases hk : k' = k
    · simp [look, hk] at h ⊢
      exact h
    · simp [look, hk] at h ⊢
      exact ih h

theorem look_append_none {α β : Type} [DecidableEq α] {k : α} {a b : List (α × β)}
    (h : look k a = none) : look k (a ++ b) = look k b := by
  induction a with
  | nil => simp
  | cons x xs ih =>
    obtain ⟨k', w⟩ := x
    by_cases hk : k' = k
    · simp [look, hk] at h
    · simp [look, hk] at h ⊢
      exact ih h

theorem look_mem {α β : Type} [DecidableEq α] {k : α} {xs : List (α × β)} {v : β}
    (h : look k xs = some v) : (k, v) ∈ xs := by
  induction xs with
  | nil => simp [look] at h
  | cons x rest ih =>
    obtain ⟨k', w⟩ := x
    by_cases hk : k' = k
    · simp [look, hk] at h
      subst hk
      simp [h]
    · simp [look, hk] at h
      exact List.mem_cons_of_mem _ (ih h)

theorem look_map_mem {α β γ : Type} [DecidableEq α] (key : γ → α) (val : γ → β)
    {k : α} {xs : List γ} {v : β}
    (h : look k (xs.map fun x => (key x, val x)) = some v) :
    ∃ x, x ∈ xs ∧ key x = k ∧ v = val x := by
  induction xs with
  | nil => simp [look] at h
  | cons x rest ih =>
    by_cases hk : key x = k
    · simp [look, hk] at h
      exact ⟨x, List.mem_cons_self x rest, hk, h.symm⟩
    · simp [look, hk] at h
      obtain ⟨y, hy, hky, hv⟩ := ih h
      exact ⟨y, List.mem_cons_of_mem _ hy, hky, hv⟩

theorem look_map_pair {β : Type} (notes : List LocalNote) (g : LocalNote → β) (id : Nat) :
    look id (notes.map fun n => (n.id, g n))
      = (look id (notes.map fun n => (n.id, n))).map g := by
  induction notes with
  | nil => simp [look]
  | cons n rest ih =>
    by_cases hk : n.id = id
    · simp [look, hk]
    · simp [look, hk, ih]

theorem processId_skip_or_grow {r : Remote} {io : Bool} {res : Nat → Option Resolution}
    {acc : Staged} {x : Nat × SyncAction} {acc' : Staged}
    (h : processId r io res acc x = .ok acc') :
    (x.2 = SyncAction.skip ∧ acc' = acc) ∨ acc.size < acc'.size := by
  obtain ⟨id, act⟩ := x
  cases act with
  | skip =>
    left
    simp only [processId] at h
    cases h
    exact ⟨rfl, rfl⟩
  | upload c =>
    right
    simp only [processId] at h
    split at h
    · cases h
    · cases h
      simp [Staged.size]
  | download rev =>
    right
    simp only [processId] at h
    split at h
    · cases h
      simp [Staged.size]
    · cases h
  | downloadNew rev =>
    right
    simp only [processId] at h
    split at h
    · cases h
      simp [Staged.size]
    · cases h
  | deleteLocal =>
    right
    simp only [processId] at h
    cases h
    simp [Staged.size]
  | tombstone =>
    right
    simp only [processId] at h
    cases h
    simp [Staged.size]
  | conflict c rev =>
    right
    simp only [processId] at h
    split at h
    · cases h
    · split at h
      · cases h
      · cases h
        simp [Staged.size]
    · split at h
      · cases h
        simp [Staged.size]
      · cases h
    · split at h
      · split at h
        · cases h
        · cases h
          simp [Staged.size]
          omega
      · cases h

theorem processAll_size_mono {r : Remote} {io : Bool} {res : Nat → Option Resolution} :
    ∀ {xs : List (Nat × SyncAction)} {acc acc' : Staged},
    processAll r io res acc xs = .ok acc' → acc.size ≤ acc'.size := by
  intro xs
  induction xs with
  | nil =>
    intro acc acc' h
    simp only [processAll] at h
    cases h
    exact Nat.le_refl _
  | cons x rest ih =>
    intro acc acc' h
    simp only [processAll] at h
    cases hp : processId r io res acc x with
    | error e => rw [hp] at h; cases h
    | ok acc1 =>
      rw [hp] at h
      rcases processId_skip_or_grow hp with ⟨_, rfl⟩ | hlt
      · exact ih h
      · exact Nat.le_of_lt (Nat.lt_of_lt_of_le hlt (ih h))

theorem processAll_stuck {r : Remote} {io : Bool} {res : Nat → Option Resolution} :
    ∀ {xs : List (Nat × SyncAction)} {acc acc' : Staged},
    processAll r io res acc xs = .ok acc' → acc'.size ≤ acc.size →
    acc' = acc ∧ ∀ x ∈ xs, x.2 = SyncAction.skip := by
  intro xs
  induction xs with
  | nil =>
    intro acc acc' h _
    simp only [processAll] at h
    cases h
    exact ⟨rfl, by simp⟩
  | cons x rest ih =>
    intro acc acc' h hle
    simp only [processAll] at h
    cases hp : processId r io res acc x with
    | error e => rw [hp] at h; cases h
    | ok acc1 =>
      rw [hp] at h
      rcases processId_skip_or_grow hp with ⟨hsk, rfl⟩ | hlt
      · obtain ⟨rfl, hrest⟩ := ih h hle
        refine ⟨rfl, ?_⟩
        intro y hy
        rcases List.mem_cons.mp hy with rfl | hy'
        · exact hsk
        · exact hrest y hy'
      · have := processAll_size_mono h
        omega

theorem processAll_of_skip {r : Remote} {io : Bool} {res : Nat → Option Resolution} :
    ∀ {xs : List (Nat × SyncAction)} {acc : Staged},
    (∀ x ∈ xs, x.2 = SyncAction.skip) → processAll r io res acc xs = .ok acc := by
  intro xs
  induction xs with
  | nil => intro acc _; rfl
  | cons x rest ih =>
    intro acc hsk
    obtain ⟨id, act⟩ := x
    have hx : act = SyncAction.skip := hsk (id, act) (List.mem_cons_self _ _)
    subst hx
    simp only [processAll, processId]
    exact ih (fun y hy => hsk y (List.mem_cons_of_mem _ hy))

theorem look_append_cases {α β : Type} [DecidableEq α] {k : α} {a b : List (α × β)} {v : β}
    (h : look k (a ++ b) = some v) :
    look k a = some v ∨ (look k a = none ∧ look k b = some v) := by
  cases ha : look k a with
  | some w =>
    left
    rw [look_append_some ha] at h
    exact h
  | none =>
    right
    rw [look_append_none ha] at h
    exact ⟨rfl, h⟩

theorem applyLocal_unmodified (l : LocalStore) (st : Staged) :
    ∀ n ∈ (applyLocal l st).notes, n.modified = false := by
  intro n hn
  simp only [applyLocal, List.mem_append, List.mem_map] at hn
  rcases hn with ⟨m, _, rfl⟩ | ⟨p, _, rfl⟩ <;> rfl

theorem manifestAt_commit (r : Remote) (man : Manifest) (st : Staged) :
    manifestAt (commitTransaction r man st).1 = (commitTransaction r man st).2 := rfl

theorem commit_latest (r : Remote) (man : Manifest) (st : Staged) :
    (commitTransaction r man st).2.latest_revision = man.latest_revision + 1 := rfl

theorem rebuildState_last (man' : Manifest) (l' : LocalStore) :
    (rebuildState man' l').last_synced_revision = man'.latest_revision := rfl

theorem commit_entries_bound (r : Remote) (man : Manifest) (st : Staged)
    (hwf : manifestWF man = true) :
    ∀ id e, look id (commitTransaction r man st).2.entries = some e →
      e.revision ≤ (commitTransaction r man st).2.latest_revision := by
  intro id e h
  simp only [commitTransaction] at h ⊢
  rcases look_append_cases h with hnew | ⟨_, hold⟩
  · rcases look_append_cases hnew with hup | ⟨_, htomb⟩
    · obtain ⟨p, _, _, rfl⟩ := look_map_mem Prod.fst
        (fun _ => NoteEntry.mk (man.latest_revision + 1) false) hup
      exact Nat.le_refl _
    · obtain ⟨i, _, _, rfl⟩ := look_map_mem (fun i => i)
        (fun _ => NoteEntry.mk (man.latest_revision + 1) true) htomb
      exact Nat.le_refl _
  · have hmem := look_mem hold
    have := List.all_eq_true.mp hwf ⟨id, e⟩ hmem
    simp at this
    omega

theorem classify_skip_of_clean (s' : SyncState) (man' : Manifest) (l' : LocalStore)
    (h1 : ∀ n ∈ l'.notes, n.modified = false)
    (h2 : ∀ id, (look id (l'.notes.map fun n => (n.id, n))).isSome
          = (look id s'.local_revisions).isSome)
    (h3 : ∀ id e, look id man'.entries = some e → e.revision ≤ s'.last_synced_revision) :
    ∀ id, classify s' man' l' id = .skip := by
  intro id
  have h2' := h2 id
  unfold classify
  cases hx : look id (l'.notes.map fun n => (n.id, n)) with
  | some n =>
    have hn : n ∈ l'.notes := by
      obtain ⟨x, hxmem, _, rfl⟩ :=
        look_map_mem (fun (m : LocalNote) => m.id) (fun (m : LocalNote) => m) hx
      exact hxmem
    have hmod := h1 n hn
    cases hy : look id s'.local_revisions with
    | none => rw [hx, hy] at h2'; simp at h2'
    | some lr =>
      cases hz : look id man'.entries with
      | some e =>
        have hb := h3 id e hz
        simp [hmod, Nat.not_lt.mpr hb]
      | none => simp [hmod]
  | none =>
    cases hy : look id s'.local_revisions with
    | some lr => rw [hx, hy] at h2'; simp at h2'
    | none =>
      cases hz : look id man'.entries with
      | some e =>
        have hb := h3 id e hz
        simp [Nat.not_lt.mpr hb]
      | none => simp

theorem sync_all_skip (commitOk2 ioFail2 : Bool) (resolver2 : Nat → Option Resolution)
    (l : LocalStore) (r : Remote) (s : SyncState)
    (hsk : ∀ x ∈ (sessionIds (manifestAt r) l s).map
        (fun id => (id, classify s (manifestAt r) l id)), x.2 = SyncAction.skip) :
    perform_synchronization true commitOk2 ioFail2 resolver2 l r s
      = { result := .ok (), store := l, remote := r, state := s
          uploadCount := 0, downloadCount := 0, conflictCount := 0, committed := false } := by
  have hfold : processAll r ioFail2 resolver2
      (initStaged (sessionIds (manifestAt r) l s))
      ((sessionIds (manifestAt r) l s).map (fun id => (id, classify s (manifestAt r) l id)))
      = .ok (initStaged (sessionIds (manifestAt r) l s)) := processAll_of_skip hsk
  unfold perform_synchronization
  simp only [hfold]
  simp [initStaged, Staged.noChanges]

/-- C5: idempotence — after a successful sync session, an immediately
following session with no intervening local or remote change succeeds with
zero uploads, zero downloads and zero conflicts, commits nothing, and
leaves the local store, the remote (hence the manifest's `latest_revision`)
and the sync state (hence `last_synced_revision`) unchanged. -/
theorem sync_idempotent (commitOk ioFail : Bool)
    (resolver resolver2 : Nat → Option Resolution)
    (l : LocalStore) (r : Remote) (s : SyncState)
    (hwf : manifestWF (manifestAt r) = true)
    (hok : (perform_synchronization true commitOk ioFail resolver l r s).result = .ok ()) :
    perform_synchronization true true false resolver2
        (perform_synchronization true commitOk ioFail resolver l r s).store
        (perform_synchronization true commitOk ioFail resolver l r s).remote
        (perform_synchronization true commitOk ioFail resolver l r s).state
      = { result := .ok ()
          store := (perform_synchronization true commitOk ioFail resolver l r s).store
          remote := (perform_synchronization true commitOk ioFail resolver l r s).remote
          state := (perform_synchronization true commitOk ioFail resolver l r s).state
          uploadCount := 0, downloadCount := 0, conflictCount := 0
          committed := false } := by
  unfold perform_synchronization at hok
  simp only [reduceIte] at hok
  cases hp : processAll r ioFail resolver (initStaged (sessionIds (manifestAt r) l s))
      ((sessionIds (manifestAt r) l s).map (fun id => (id, classify s (manifestAt r) l id))) with
  | error e =>
    rw [hp] at hok
    simp [abortOutcome] at hok
  | ok st =>
    rw [hp] at hok
    by_cases hn : st.noChanges
    · have hempty : ((st.uploads = [] ∧ st.tombstones = []) ∧ st.localWrites = [])
          ∧ st.localNews = [] ∧ st.localDeletes = [] := by
        simpa [Staged.noChanges, and_assoc] using hn
      have hsz : st.size ≤ (initStaged (sessionIds (manifestAt r) l s)).size := by
        obtain ⟨⟨⟨h1, h2⟩, h3⟩, h4, h5⟩ := hempty
        simp [Staged.size, initStaged, h1, h2, h3, h4, h5]
      obtain ⟨hst, hallskip⟩ := processAll_stuck hp hsz
      have ho1 : perform_synchronization true commitOk ioFail resolver l r s
          = { result := .ok (), store := l, remote := r, state := s
              uploadCount := st.uploads.length
              downloadCount := st.localWrites.length + st.localNews.length
              conflictCount := st.conflicts, committed := false } := by
        unfold perform_synchronization
        simp only [reduceIte]
        rw [hp]
        simp [hn]
      rw [ho1]
      exact sync_all_skip true false resolver2 l r s hallskip
    · by_cases hc : commitOk = false
      · simp [hn, hc, abortOutcome] at hok
      · have ho1 : perform_synchronization true commitOk ioFail resolver l r s
            = { result := .ok (), store := applyLocal l st
                remote := (commitTransaction r (manifestAt r) st).1
                state := rebuildState (commitTransaction r (manifestAt r) st).2 (applyLocal l st)
                uploadCount := st.uploads.length
                downloadCount := st.localWrites.length + st.localNews.length
                conflictCount := st.conflicts, committed := true } := by
          unfold perform_synchronization
          simp only [reduceIte]
          rw [hp]
          simp [hn, hc]
        rw [ho1]
        have h1 := applyLocal_unmodified l st
        have h2 : ∀ id, (look id ((applyLocal l st).notes.map fun n => (n.id, n))).isSome
            = (look id (rebuildState (commitTransaction r (manifestAt r) st).2
                (applyLocal l st)).local_revisions).isSome := by
          intro id
          have hrb : (rebuildState (commitTransaction r (manifestAt r) st).2
              (applyLocal l st)).local_revisions
              = (applyLocal l st).notes.map (fun n =>
                  (n.id, match look n.id (commitTransaction r (manifestAt r) st).2.entries with
                         | some e => e.revision
                         | none => (commitTransaction r (manifestAt r) st).2.latest_revision)) := rfl
          have hmp := look_map_pair (applyLocal l st).notes
            (fun n => match look n.id (commitTransaction r (manifestAt r) st).2.entries with
                      | some e => e.revision
                      | none => (commitTransaction r (manifestAt r) st).2.latest_revision) id
          rw [hrb, hmp]
          cases look id ((applyLocal l st).notes.map fun n => (n.id, n)) <;> simp
        have h3 : ∀ id e, look id (commitTransaction r (manifestAt r) st).2.entries = some e →
            e.revision ≤ (rebuildState (commitTransaction r (manifestAt r) st).2
              (applyLocal l st)).last_synced_revision := by
          intro id e he
          rw [rebuildState_last]
          exact commit_entries_bound r (manifestAt r) st hwf id e he
        have hskid := classify_skip_of_clean
            (rebuildState (commitTransaction r (manifestAt r) st).2 (applyLocal l st))
            (commitTransaction r (manifestAt r) st).2
            (applyLocal l st) h1 h2 h3
        have hsk2 : ∀ x ∈ (sessionIds (manifestAt (commitTransaction r (manifestAt r) st).1)
              (applyLocal l st)
              (rebuildState (commitTransaction r (manifestAt r) st).2 (applyLocal l st))).map
            (fun id => (id, classify
              (rebuildState (commitTransaction r (manifestAt r) st).2 (applyLocal l st))
              (manifestAt (commitTransaction r (manifestAt r) st).1)
              (applyLocal l st) id)), x.2 = SyncAction.skip := by
          intro x hx
          obtain ⟨id, _, rfl⟩ := List.mem_map.mp hx
          show classify _ _ _ id = SyncAction.skip
          rw [manifestAt_commit]
          exact hskid id
        exact sync_all_skip true false resolver2 _ _ _ hsk2

theorem sync_idempotent_witness :
    manifestWF (manifestAt freshRemote) = true ∧
    fixtureOutcome.result = .ok () ∧
    perform_synchronization true true false (fun _ => none)
        fixtureOutcome.store fixtureOutcome.remote fixtureOutcome.state
      = { result := .ok (), store := fixtureOutcome.store
          remote := fixtureOutcome.remote, state := fixtureOutcome.state
          uploadCount := 0, downloadCount := 0, conflictCount := 0
          committed := false } :=
  ⟨rfl, rfl, sync_idempotent true false (fun _ => none) (fun _ => none)
    fixtureStore freshRemote freshState rfl rfl⟩

theorem sync_step_props (mountOk commitOk ioFail : Bool)
    (resolver : Nat → Option Resolution) (l : LocalStore) (r : Remote) (s : SyncState)
    (hwf : s.last_synced_revision ≤ (manifestAt r).latest_revision) :
    s.last_synced_revision
      ≤ (perform_synchronization mountOk commitOk ioFail resolver l r s).state.last_synced_revision ∧
    (perform_synchronization mountOk commitOk ioFail resolver l r s).state.last_synced_revision
      ≤ (manifestAt (perform_synchronization mountOk commitOk ioFail
          resolver l r s).remote).latest_revision ∧
    ((perform_synchronization mountOk commitOk ioFail resolver l r s).committed = false →
      (perform_synchronization mountOk commitOk ioFail resolver l r s).state.last_synced_revision
        = s.last_synced_revision) ∧
    (∀ e, (perform_synchronization mountOk commitOk ioFail resolver l r s).result = .error e →
      (perform_synchronization mountOk commitOk ioFail resolver l r s).state = s) := by
  unfold perform_synchronization
  by_cases hm : mountOk = false
  · simp [hm, abortOutcome, hwf]
  · simp only [if_neg hm]
    cases hp : processAll r ioFail resolver (initStaged (sessionIds (manifestAt r) l s))
        ((sessionIds (manifestAt r) l s).map (fun id => (id, classify s (manifestAt r) l id))) with
    | error e => simp [hp, abortOutcome, hwf]
    | ok st =>
      by_cases hn : st.noChanges
      · simp [hp, hn, hwf]
      · by_cases hc : commitOk = false
        · simp [hp, hn, hc, abortOutcome, hwf]
        · simp only [hp, hn, hc]
          simp [rebuildState_last, manifestAt_commit, commit_latest]
          omega

theorem runSessions_mono (ps : List SessionParams) : ∀ (l : LocalStore) (r : Remote) (s : SyncState),
    s.last_synced_revision ≤ (manifestAt r).latest_revision →
    s.last_synced_revision ≤ (runSessions ps (l, r, s)).2.2.last_synced_revision := by
  induction ps with
  | nil =>
    intro l r s _
    exact Nat.le_refl _
  | cons p ps ih =>
    intro l r s hwf
    have hstep := sync_step_props p.mountOk p.commitOk p.ioFail p.resolver l r s hwf
    have hrec := ih (perform_synchronization p.mountOk p.commitOk p.ioFail p.resolver l r s).store
      (perform_synchronization p.mountOk p.commitOk p.ioFail p.resolver l r s).remote
      (perform_synchronization p.mountOk p.commitOk p.ioFail p.resolver l r s).state
      hstep.2.1
    exact Nat.le_trans hstep.1 hrec

/-- C6: `SyncState.last_synced_revision` is monotone — in one session it
never decreases, it stays unchanged whenever nothing was committed (in
particular the whole state is untouched by any aborted session), and across
every sequence of sessions the final value is at least the initial one. -/
theorem last_synced_monotone (mountOk commitOk ioFail : Bool)
    (resolver : Nat → Option Resolution) (ps : List SessionParams)
    (l : LocalStore) (r : Remote) (s : SyncState)
    (hwf : s.last_synced_revision ≤ (manifestAt r).latest_revision) :
    (s.last_synced_revision ≤ (perform_synchronization mountOk commitOk ioFail
        resolver l r s).state.last_synced_revision) ∧
    ((perform_synchronization mountOk commitOk ioFail resolver l r s).committed = false →
      (perform_synchronization mountOk commitOk ioFail resolver l r s).state.last_synced_revision
        = s.last_synced_revision) ∧
    (∀ e, (perform_synchronization mountOk commitOk ioFail resolver l r s).result = .error e →
      (perform_synchronization mountOk commitOk ioFail resolver l r s).state = s) ∧
    (s.last_synced_revision ≤ (runSessions ps (l, r, s)).2.2.last_synced_revision) := by
  obtain ⟨h1, _, h3, h4⟩ := sync_step_props mountOk commitOk ioFail resolver l r s hwf
  exact ⟨h1, h3, h4, runSessions_mono ps l r s hwf⟩

theorem last_synced_monotone_witness :
    freshState.last_synced_revision ≤ (manifestAt freshRemote).latest_revision ∧
    freshState.last_synced_revision
      ≤ (perform_synchronization false true false (fun _ => none)
          fixtureStore freshRemote freshState).state.last_synced_revision :=
  ⟨by decide, (last_synced_monotone false true false (fun _ => none) []
    fixtureStore freshRemote freshState (by decide)).1⟩

/-- C8: the blocking claim fails on the code as written.  `cond.wait` is
called exactly once with no predicate re-check loop, and GLib condition
variables permit spurious wakeups, so the mount machine reaches a state in
which `mount` has already returned `false` while the callback has not run
at all and the attempt — which will succeed (`outcome = true`) — is still
undetermined: the engine proceeds past mount before the outcome is known. -/
theorem mount_spurious_wakeup_breaks_blocking :
    MountReachable true
      { mpc := .returned, cpc := .idle, mutexFree := true, signalFlag := false
        mmount := false, ret := some false } ∧
    ({ mpc := .returned, cpc := .idle, mutexFree := true, signalFlag := false
       mmount := false, ret := some false } : MountMachine).ret = some false ∧
    ({ mpc := .returned, cpc := .idle, mutexFree := true, signalFlag := false
       mmount := false, ret := some false } : MountMachine).cpc = CbPC.idle :=
  ⟨Relation.ReflTransGen.head (MountStep.mainLock _ rfl rfl)
    (Relation.ReflTransGen.head (MountStep.mainAsyncStart _ rfl)
      (Relation.ReflTransGen.head (MountStep.mainWait _ rfl)
        (Relation.ReflTransGen.head (MountStep.mainWakeSpurious _ rfl rfl)
          (Relation.ReflTransGen.head (MountStep.mainReturn _ rfl)
            Relation.ReflTransGen.refl)))),
   rfl, rfl⟩
